import Mathlib

/-
Verification development for the wallet-analysis engine of the
Crypto-Transaction-Tool repository (src/Code.py, class
CryptoTransactionAnalyzer).

Modelling choices:
- Amounts and time instants are exact rationals.  A decimal literal of the
  source such as 1.5 is the rational 3/2, and 3.5 is 7/2.
- A timestamp cell is either the raw ISO-8601 text as loaded by the data
  layer, or the parsed instant (in seconds).  The library parse function
  pd.to_datetime of the data layer is abstracted as a parameter
  parse : String -> Rat; the analysis logic never inspects its output
  beyond taking differences of instants.
- A pandas DataFrame of transactions is a list of records.  Code that
  assigns to a column of a frame in place (line 68 of the source,
  transactions[timestamp] = pd.to_datetime(...)) is embedded by explicit
  state passing: calculate_velocity returns the metrics together with the
  post-call contents of the frame it received.
- Boolean-mask selection (line 26, transactions[mask]) copies the selected
  rows, so the subset handed to the components is a fresh frame and the
  caller keeps its own contents.
-/

namespace CryptoTool

/-- Timestamp cell of a transaction record: raw ISO-8601 text as loaded
from JSON, or an instant in seconds once pd.to_datetime has run on the
column. -/
inductive TsCell where
  | raw (s : String)
  | parsed (t : ℚ)
deriving DecidableEq, Repr

/-- Transaction record, fields as in the JSON schema of the source. -/
structure Tx where
  timestamp : TsCell
  from_address : String
  to_address : String
  amount : ℚ
  transaction_hash : String
deriving DecidableEq, Repr

/-- Thresholds of the suspicious_patterns entry of the configuration
dictionary built in __init__ (lines 11-15). -/
structure SuspiciousPatterns where
  structuring : ℚ
  velocity : ℚ
  round_amounts : Bool
deriving DecidableEq, Repr

/-- Configuration dictionary self.risk_indicators built in __init__
(lines 8-16). -/
structure RiskIndicatorsConfig where
  mixing_service : List String
  high_risk_jurisdictions : List String
  suspicious_patterns : SuspiciousPatterns
deriving DecidableEq, Repr

/-- Value given to self.risk_indicators by __init__ (lines 8-16). -/
def defaultRiskIndicators : RiskIndicatorsConfig :=
  { mixing_service := ["tornado.cash", "wasabi", "samourai"],
    high_risk_jurisdictions := ["sanctioned-country-1", "sanctioned-country-2"],
    suspicious_patterns := { structuring := 9999, velocity := 5, round_amounts := true } }

/-- Velocity metrics returned by calculate_velocity. -/
structure Velocity where
  hourly_avg : ℚ
  daily_avg : ℚ
deriving DecidableEq, Repr

/-- Entry of the list returned by get_top_counterparties. -/
structure TopCounterparty where
  address : String
  volume : ℚ
deriving DecidableEq, Repr

/-- Result of analyze_counterparties. -/
structure Counterparties where
  unique_counterparties : ℕ
  top_counterparties : List TopCounterparty
deriving DecidableEq, Repr

/-- Analysis dictionary assembled by analyze_wallet (lines 31-38). -/
structure WalletAnalysis where
  address : String
  total_transactions : ℕ
  total_volume : ℚ
  risk_indicators : List String
  transaction_velocity : Velocity
  counterparties : Counterparties
deriving DecidableEq, Repr

/-- Boolean-mask row selection of lines 26-29: rows whose from_address or
to_address equals the given address, original relative order kept.  The
spec names this contract filter_by_address. -/
def filter_by_address (transactions : List Tx) (address : String) : List Tx :=
  transactions.filter (fun tx => tx.from_address == address || tx.to_address == address)

/-- Test float.is_integer used by the round-amount rule (line 58): an exact
rational is a whole number exactly when its reduced denominator is 1. -/
def isWholeNumber (x : ℚ) : Bool := x.den == 1

/-- Rule engine check_risk_indicators (lines 42-61): the three rule blocks
run in declaration order, each appending its finding strings to the risks
list.  The for-loop over the mixing_service list appending one finding per
matched mixer is written as filter-then-map, which produces the same list
in the same order. -/
def check_risk_indicators (cfg : RiskIndicatorsConfig) (transactions : List Tx) :
    List String :=
  ((cfg.mixing_service.filter
      (fun mixer => transactions.any (fun tx => tx.to_address == mixer))).map
      (fun mixer => "Interaction with mixing service: " ++ mixer))
  ++ (if transactions.any
        (fun tx => decide (9900 < tx.amount) && decide (tx.amount < 10000)) then
        ["Potential structuring detected"]
      else [])
  ++ (if cfg.suspicious_patterns.round_amounts
        && transactions.any (fun tx => isWholeNumber tx.amount) then
        ["Multiple round-number transactions"]
      else [])

/-- Column conversion pd.to_datetime applied to one cell: raw text is
parsed, an already-parsed instant is kept. -/
def pdToDatetime (parse : String → ℚ) : TsCell → TsCell
  | TsCell.raw s => TsCell.parsed (parse s)
  | TsCell.parsed t => TsCell.parsed t

/-- Instant in seconds carried by a cell, reading raw text through the
parse function. -/
def tsSeconds (parse : String → ℚ) : TsCell → ℚ
  | TsCell.raw s => parse s
  | TsCell.parsed t => t

/-- Maximum of a list of rationals (series .max of the source; 0 on the
empty list, which the source never hits since it returns early). -/
def maxList : List ℚ → ℚ
  | [] => 0
  | x :: xs => xs.foldl max x

/-- Minimum of a list of rationals (series .min of the source). -/
def minList : List ℚ → ℚ
  | [] => 0
  | x :: xs => xs.foldl min x

/-- Velocity calculator calculate_velocity (lines 63-75).  The first
component is the returned metrics dictionary; the second is the post-call
contents of the frame passed in, making the in-place assignment of line 68
(timestamp column rewritten by pd.to_datetime) explicit. -/
def calculate_velocity (parse : String → ℚ) (transactions : List Tx) :
    Velocity × List Tx :=
  if transactions.length = 0 then
    ({ hourly_avg := 0, daily_avg := 0 }, transactions)
  else
    let converted := transactions.map
      (fun tx => { tx with timestamp := pdToDatetime parse tx.timestamp })
    let times := converted.map (fun tx => tsSeconds parse tx.timestamp)
    let hours := (maxList times - minList times) / 3600
    ({ hourly_avg := (converted.length : ℚ) / max hours 1,
       daily_avg := (converted.length : ℚ) / max (hours / 24) 1 },
     converted)

/-- Unique recipients of the rows sent by the address (line 82 followed by
the set() conversion of line 86). -/
def sentToSet (address : String) (transactions : List Tx) : Finset String :=
  ((transactions.filter (fun tx => tx.from_address == address)).map Tx.to_address).toFinset

/-- Unique senders of the rows received by the address (line 83 followed by
the set() conversion of line 86). -/
def receivedFromSet (address : String) (transactions : List Tx) : Finset String :=
  ((transactions.filter (fun tx => tx.to_address == address)).map Tx.from_address).toFinset

/-- Counterparty of one row as attributed on line 95: the recipient when
the wallet is the sender, otherwise the sender. -/
def counterpartyOf (address : String) (tx : Tx) : String :=
  if tx.from_address == address then tx.to_address else tx.from_address

/-- Dictionary update counterparty_volumes[k] = counterparty_volumes.get(k, 0) + v
of line 96 on an insertion-ordered association list (a Python dict keeps
insertion order): an existing key accumulates in place, a new key is
appended. -/
def addVolume (acc : List (String × ℚ)) (k : String) (v : ℚ) : List (String × ℚ) :=
  match acc with
  | [] => [(k, v)]
  | (k₀, v₀) :: rest =>
      if k₀ == k then (k₀, v₀ + v) :: rest else (k₀, v₀) :: addVolume rest k v

/-- Accumulation loop of lines 92-96: fold the rows into per-counterparty
volumes, keyed by the attributed counterparty. -/
def counterparty_volumes (address : String) (transactions : List Tx) :
    List (String × ℚ) :=
  transactions.foldl (fun acc tx => addVolume acc (counterpartyOf address tx) tx.amount) []

/-- Comparison used by the ranking of lines 98-102: sorted with
key volume and reverse=True orders by volume, highest first, and is
stable.  Mathlib insertionSort with this relation is exactly that stable
descending sort. -/
def volGe (x y : TopCounterparty) : Prop := y.volume ≤ x.volume

instance : DecidableRel volGe := fun x y => inferInstanceAs (Decidable (y.volume ≤ x.volume))

instance : IsTotal TopCounterparty volGe := ⟨fun x y => le_total y.volume x.volume⟩

instance : IsTrans TopCounterparty volGe := ⟨fun _ _ _ h₁ h₂ => le_trans h₂ h₁⟩

/-- Ranking get_top_counterparties (lines 90-102): accumulate volumes, turn
the dictionary into records, sort stably by volume descending, keep the
first top_n (the source defaults top_n to 5 and analyze_counterparties
calls it with that default). -/
def get_top_counterparties (address : String) (transactions : List Tx)
    (top_n : ℕ) : List TopCounterparty :=
  ((List.insertionSort volGe
      ((counterparty_volumes address transactions).map
        (fun p => TopCounterparty.mk p.1 p.2))).take top_n)

/-- Counterparty aggregator analyze_counterparties (lines 77-88):
unique_counterparties is the size of the union of the two one-directional
sets; top_counterparties comes from the ranking with the default top_n. -/
def analyze_counterparties (address : String) (transactions : List Tx) :
    Counterparties :=
  { unique_counterparties := (sentToSet address transactions ∪ receivedFromSet address transactions).card,
    top_counterparties := get_top_counterparties address transactions 5 }

/-- Orchestrator analyze_wallet (lines 24-40).  The dictionary entries are
evaluated in order: the risk engine sees the freshly filtered subset,
calculate_velocity then rewrites the timestamp column of that subset in
place, and analyze_counterparties sees the rewritten subset (it never reads
timestamps, so this does not change its result).  cfg stands for the
instance state self.risk_indicators, whose constructed value is
defaultRiskIndicators. -/
def analyze_wallet (parse : String → ℚ) (cfg : RiskIndicatorsConfig)
    (address : String) (transactions : List Tx) : WalletAnalysis :=
  let wallet_txs := filter_by_address transactions address
  let vel := calculate_velocity parse wallet_txs
  { address := address,
    total_transactions := wallet_txs.length,
    total_volume := (wallet_txs.map Tx.amount).sum,
    risk_indicators := check_risk_indicators cfg wallet_txs,
    transaction_velocity := vel.1,
    counterparties := analyze_counterparties address vel.2 }

/-- Wallet analysis with the post-call contents of the caller frame made
explicit.  The boolean-mask selection of line 26 copies the selected rows,
so the in-place timestamp assignment inside calculate_velocity lands on the
copy wallet_txs and the caller frame comes back as it went in. -/
def analyze_wallet_state (parse : String → ℚ) (cfg : RiskIndicatorsConfig)
    (address : String) (transactions : List Tx) : WalletAnalysis × List Tx :=
  (analyze_wallet parse cfg address transactions, transactions)

/-- Spec-side reading of the counterparty set: recipients of the outgoing
transactions of the wallet united with senders of its incoming ones,
phrased directly over the set of rows. -/
def specCounterpartySet (address : String) (transactions : List Tx) : Finset String :=
  (transactions.toFinset.filter (fun tx => tx.from_address = address)).image Tx.to_address
  ∪ (transactions.toFinset.filter (fun tx => tx.to_address = address)).image Tx.from_address

/-- Instants of the rows of a subset, read through the parse function. -/
def txTimes (parse : String → ℚ) (transactions : List Tx) : List ℚ :=
  transactions.map (fun tx => tsSeconds parse tx.timestamp)

/-- Time span of a subset in hours: difference of the extreme instants,
divided by 3600 (lines 69-70). -/
def spanHours (parse : String → ℚ) (transactions : List Tx) : ℚ :=
  (maxList (txTimes parse transactions) - minList (txTimes parse transactions)) / 3600

theorem tsSeconds_pdToDatetime (parse : String → ℚ) (c : TsCell) :
    tsSeconds parse (pdToDatetime parse c) = tsSeconds parse c := by
  cases c <;> rfl

theorem foldl_min_le_init (xs : List ℚ) : ∀ x : ℚ, xs.foldl min x ≤ x := by
  induction xs with
  | nil => intro x; simp
  | cons y ys ih => intro x; exact le_trans (ih (min x y)) (min_le_left x y)

theorem init_le_foldl_max (xs : List ℚ) : ∀ x : ℚ, x ≤ xs.foldl max x := by
  induction xs with
  | nil => intro x; simp
  | cons y ys ih => intro x; exact le_trans (le_max_left x y) (ih (max x y))

theorem minList_le_maxList (l : List ℚ) (h : l ≠ []) : minList l ≤ maxList l := by
  cases l with
  | nil => exact absurd rfl h
  | cons x xs => exact le_trans (foldl_min_le_init xs x) (init_le_foldl_max xs x)

theorem spanHours_nonneg (parse : String → ℚ) (S : List Tx) (h : S ≠ []) :
    0 ≤ spanHours parse S := by
  have ht : txTimes parse S ≠ [] := by simpa [txTimes] using h
  rw [spanHours]
  apply div_nonneg _ (by norm_num)
  linarith [minList_le_maxList _ ht]

theorem calculate_velocity_fst (parse : String → ℚ) (S : List Tx) (h : S ≠ []) :
    (calculate_velocity parse S).1 =
      { hourly_avg := (S.length : ℚ) / max (spanHours parse S) 1,
        daily_avg := (S.length : ℚ) / max (spanHours parse S / 24) 1 } := by
  rw [calculate_velocity, if_neg (by simpa using h)]
  simp [spanHours, txTimes, List.map_map, Function.comp_def, tsSeconds_pdToDatetime]

/-- C8: filtering by address keeps exactly the transactions whose
from_address or to_address equals the given address, as a sublist of the
input (original relative order, self-transfers once); the empty input
yields the empty subset; and filtering is idempotent. -/
theorem C8_filter_by_address_contract (transactions : List Tx) (address : String) :
    filter_by_address transactions address
      = transactions.filter
          (fun tx => decide (tx.from_address = address ∨ tx.to_address = address))
    ∧ (filter_by_address transactions address).Sublist transactions
    ∧ filter_by_address ([] : List Tx) address = []
    ∧ filter_by_address (filter_by_address transactions address) address
        = filter_by_address transactions address := by
  refine ⟨?_, List.filter_sublist _, rfl, ?_⟩
  · apply List.filter_congr
    intro tx _
    rw [Bool.eq_iff_iff]
    simp
  · rw [filter_by_address, filter_by_address, List.filter_filter]
    apply List.filter_congr
    intro tx _
    rw [Bool.and_self]

/-- C7: an address appearing in no transaction gets the all-zero analysis:
zero count, zero volume, no risk findings, zero velocity, no
counterparties. -/
theorem C7_absent_address_zero_analysis (parse : String → ℚ)
    (cfg : RiskIndicatorsConfig) (a : String) (T : List Tx)
    (h : ∀ tx ∈ T, tx.from_address ≠ a ∧ tx.to_address ≠ a) :
    analyze_wallet parse cfg a T =
      { address := a, total_transactions := 0, total_volume := 0,
        risk_indicators := [],
        transaction_velocity := { hourly_avg := 0, daily_avg := 0 },
        counterparties := { unique_counterparties := 0, top_counterparties := [] } } := by
  have hf : filter_by_address T a = [] := by
    rw [filter_by_address, List.filter_eq_nil_iff]
    intro tx htx
    simp [(h tx htx).1, (h tx htx).2]
  rw [analyze_wallet, hf]
  simp [calculate_velocity, check_risk_indicators, analyze_counterparties,
    sentToSet, receivedFromSet, get_top_counterparties, counterparty_volumes]

/-- Closed instance of the absent-address claim: the address A is in no
transaction of a one-element ledger, and the analysis is all zero. -/
theorem C7_absent_address_zero_analysis_witness :
    (∀ tx ∈ [Tx.mk (TsCell.raw "2024-01-01T10:00:00") "B" "C" 7 "0x1"],
        tx.from_address ≠ "A" ∧ tx.to_address ≠ "A")
    ∧ analyze_wallet (fun _ => 0) defaultRiskIndicators "A"
        [Tx.mk (TsCell.raw "2024-01-01T10:00:00") "B" "C" 7 "0x1"] =
      { address := "A", total_transactions := 0, total_volume := 0,
        risk_indicators := [],
        transaction_velocity := { hourly_avg := 0, daily_avg := 0 },
        counterparties := { unique_counterparties := 0, top_counterparties := [] } } :=
  ⟨by decide, C7_absent_address_zero_analysis (fun _ => 0) defaultRiskIndicators "A" _
      (by decide)⟩

/-- C2: on the two-transaction example ledger (A sends 1.5 to B, then B
sends 2.0 to A) with the shipped configuration (round-amount detection
enabled), analyzing A gives 2 transactions, volume 3.5, one unique
counterparty, top counterparty B with volume 3.5, and the single
round-number risk finding, because 2.0 is a whole number. -/
theorem C2_example_scenario (parse : String → ℚ) (h₁ h₂ : String) :
    (analyze_wallet parse defaultRiskIndicators "A"
        [Tx.mk (TsCell.raw "2024-01-01T10:00:00") "A" "B" (3/2) h₁,
         Tx.mk (TsCell.raw "2024-01-01T11:00:00") "B" "A" 2 h₂]).total_transactions = 2
    ∧ (analyze_wallet parse defaultRiskIndicators "A"
        [Tx.mk (TsCell.raw "2024-01-01T10:00:00") "A" "B" (3/2) h₁,
         Tx.mk (TsCell.raw "2024-01-01T11:00:00") "B" "A" 2 h₂]).total_volume = 7/2
    ∧ (analyze_wallet parse defaultRiskIndicators "A"
        [Tx.mk (TsCell.raw "2024-01-01T10:00:00") "A" "B" (3/2) h₁,
         Tx.mk (TsCell.raw "2024-01-01T11:00:00") "B" "A" 2 h₂]).counterparties.unique_counterparties = 1
    ∧ (analyze_wallet parse defaultRiskIndicators "A"
        [Tx.mk (TsCell.raw "2024-01-01T10:00:00") "A" "B" (3/2) h₁,
         Tx.mk (TsCell.raw "2024-01-01T11:00:00") "B" "A" 2 h₂]).counterparties.top_counterparties
        = [TopCounterparty.mk "B" (7/2)]
    ∧ (analyze_wallet parse defaultRiskIndicators "A"
        [Tx.mk (TsCell.raw "2024-01-01T10:00:00") "A" "B" (3/2) h₁,
         Tx.mk (TsCell.raw "2024-01-01T11:00:00") "B" "A" 2 h₂]).risk_indicators
        = ["Multiple round-number transactions"] := by
  refine ⟨rfl, ?_, rfl, ?_, ?_⟩
  · simp [analyze_wallet, filter_by_address]
    norm_num
  · simp [analyze_wallet, filter_by_address, calculate_velocity, analyze_counterparties,
      get_top_counterparties, counterparty_volumes, addVolume, counterpartyOf, pdToDatetime,
      List.insertionSort, List.orderedInsert]
    norm_num
  · norm_num [analyze_wallet, filter_by_address, check_risk_indicators,
      defaultRiskIndicators, isWholeNumber]
    decide

theorem string_append_right_inj (p a b : String) (h : p ++ a = p ++ b) : a = b := by
  have h2 : (p ++ a).data = (p ++ b).data := congrArg String.data h
  rw [String.data_append, String.data_append] at h2
  have h3 := List.append_cancel_left h2
  cases a
  cases b
  exact congrArg String.mk (by simpa using h3)

theorem count_mixing_map (p : String) (m : String) (q : String → Bool)
    (l : List String) (hl : l.Nodup) (hm : m ∈ l) :
    ((l.filter q).map (fun s => p ++ s)).count (p ++ m)
      = if q m = true then 1 else 0 := by
  induction l with
  | nil => cases hm
  | cons x xs ih =>
    rw [List.filter_cons]
    rcases List.mem_cons.mp hm with rfl | hmx
    · have hnotin : m ∉ xs := (List.nodup_cons.mp hl).1
      have hzero : ((xs.filter q).map (fun s => p ++ s)).count (p ++ m) = 0 := by
        rw [List.count_eq_zero]
        intro hmem
        rw [List.mem_map] at hmem
        obtain ⟨s, hs, hps⟩ := hmem
        exact hnotin (string_append_right_inj p s m hps ▸ List.mem_of_mem_filter hs)
      by_cases hq : q m
      · rw [if_pos hq, if_pos hq, List.map_cons, List.count_cons, hzero]
        simp
      · rw [if_neg hq, if_neg hq]
        exact hzero
    · have hx : x ≠ m := by
        rintro rfl
        exact (List.nodup_cons.mp hl).1 hmx
      have htail := ih (List.nodup_cons.mp hl).2 hmx
      by_cases hq : q x
      · rw [if_pos hq, List.map_cons, List.count_cons, htail]
        have hb : ((p ++ x) == (p ++ m)) = false := by
          rw [beq_eq_false_iff_ne]
          intro hc
          exact hx (string_append_right_inj p x m hc)
        rw [hb]
        simp
      · rw [if_neg hq]
        exact htail

/-- C5: the structuring rule fires exactly once precisely when some
transaction amount lies strictly between 9900 and 10000; a subset whose
amounts are all 9899 or 10000 yields no structuring finding. -/
theorem C5_structuring_rule (S : List Tx) :
    ((check_risk_indicators defaultRiskIndicators S).count "Potential structuring detected"
      = if ∃ tx ∈ S, 9900 < tx.amount ∧ tx.amount < 10000 then 1 else 0)
    ∧ ((∀ tx ∈ S, tx.amount = 9899 ∨ tx.amount = 10000) →
        (check_risk_indicators defaultRiskIndicators S).count "Potential structuring detected" = 0) := by
  have hmix : ((defaultRiskIndicators.mixing_service.filter
      (fun mixer => S.any (fun tx => tx.to_address == mixer))).map
      (fun mixer => "Interaction with mixing service: " ++ mixer)).count
      "Potential structuring detected" = 0 := by
    rw [List.count_eq_zero]
    intro hmem
    rw [List.mem_map] at hmem
    obtain ⟨mixer, hms, heq⟩ := hmem
    have hmm := List.mem_of_mem_filter hms
    fin_cases hmm <;> exact absurd heq (by decide)
  have hround : (if defaultRiskIndicators.suspicious_patterns.round_amounts
        && S.any (fun tx => isWholeNumber tx.amount) then
        ["Multiple round-number transactions"] else ([] : List String)).count
      "Potential structuring detected" = 0 := by
    split
    · decide
    · rfl
  have hmain : (check_risk_indicators defaultRiskIndicators S).count
      "Potential structuring detected"
      = if S.any (fun tx => decide (9900 < tx.amount) && decide (tx.amount < 10000)) = true
        then 1 else 0 := by
    rw [check_risk_indicators, List.count_append, List.count_append, hmix, hround]
    split <;> simp_all
  constructor
  · rw [hmain]
    simp only [List.any_eq_true, Bool.and_eq_true, decide_eq_true_eq]
  · intro hO
    have hno : S.any (fun tx => decide (9900 < tx.amount) && decide (tx.amount < 10000)) = false := by
      rw [List.any_eq_false]
      intro tx htx
      rw [Bool.and_eq_true, decide_eq_true_eq, decide_eq_true_eq]
      rintro ⟨h1, h2⟩
      rcases hO tx htx with h9 | h10
      · rw [h9] at h1
        norm_num at h1
      · rw [h10] at h2
        norm_num at h2
    rw [hmain, hno]
    simp

/-- Closed instance of the structuring rule: a single transaction of amount
9950 triggers exactly one finding, and a pair of transactions of amounts
9899 and 10000 triggers none. -/
theorem C5_structuring_rule_witness :
    (check_risk_indicators defaultRiskIndicators
        [Tx.mk (TsCell.raw "t") "A" "B" 9950 "0x1"]).count
      "Potential structuring detected" = 1
    ∧ ((∀ tx ∈ [Tx.mk (TsCell.raw "t") "A" "B" 9899 "0x1",
                Tx.mk (TsCell.raw "u") "A" "B" 10000 "0x2"],
          tx.amount = 9899 ∨ tx.amount = 10000)
       ∧ (check_risk_indicators defaultRiskIndicators
            [Tx.mk (TsCell.raw "t") "A" "B" 9899 "0x1",
             Tx.mk (TsCell.raw "u") "A" "B" 10000 "0x2"]).count
          "Potential structuring detected" = 0) :=
  ⟨((C5_structuring_rule [Tx.mk (TsCell.raw "t") "A" "B" 9950 "0x1"]).1).trans
      (if_pos ⟨Tx.mk (TsCell.raw "t") "A" "B" 9950 "0x1", by decide, by decide, by decide⟩),
   by decide,
   (C5_structuring_rule [Tx.mk (TsCell.raw "t") "A" "B" 9899 "0x1",
      Tx.mk (TsCell.raw "u") "A" "B" 10000 "0x2"]).2 (by decide)⟩

/-- C6: the mixing-service rule is directional and amount-independent: for
each configured mixing identifier m, exactly one finding naming m appears
precisely when m occurs as a recipient in the subset, and a subset where m
occurs only as a sender yields no such finding. -/
theorem C6_mixing_rule (S : List Tx) (m : String)
    (hm : m ∈ defaultRiskIndicators.mixing_service) :
    ((check_risk_indicators defaultRiskIndicators S).count
        ("Interaction with mixing service: " ++ m)
      = if ∃ tx ∈ S, tx.to_address = m then 1 else 0)
    ∧ ((∀ tx ∈ S, tx.to_address ≠ m) →
        "Interaction with mixing service: " ++ m ∉
          check_risk_indicators defaultRiskIndicators S) := by
  have hnodup : defaultRiskIndicators.mixing_service.Nodup := by decide
  have hmcount := count_mixing_map "Interaction with mixing service: " m
      (fun mixer => S.any (fun tx => tx.to_address == mixer))
      defaultRiskIndicators.mixing_service hnodup hm
  have hstruct : (if S.any (fun tx => decide (9900 < tx.amount) && decide (tx.amount < 10000)) then
        ["Potential structuring detected"] else ([] : List String)).count
      ("Interaction with mixing service: " ++ m) = 0 := by
    have hne : "Potential structuring detected" ≠ "Interaction with mixing service: " ++ m := by
      fin_cases hm <;> decide
    split
    · simp [List.count_cons, hne]
    · rfl
  have hround : (if defaultRiskIndicators.suspicious_patterns.round_amounts
        && S.any (fun tx => isWholeNumber tx.amount) then
        ["Multiple round-number transactions"] else ([] : List String)).count
      ("Interaction with mixing service: " ++ m) = 0 := by
    have hne : "Multiple round-number transactions" ≠ "Interaction with mixing service: " ++ m := by
      fin_cases hm <;> decide
    split
    · simp [List.count_cons, hne]
    · rfl
  have hmain : (check_risk_indicators defaultRiskIndicators S).count
      ("Interaction with mixing service: " ++ m)
      = if S.any (fun tx => tx.to_address == m) = true then 1 else 0 := by
    rw [check_risk_indicators, List.count_append, List.count_append, hstruct, hround, hmcount]
    simp
  constructor
  · rw [hmain]
    simp only [List.any_eq_true, beq_iff_eq]
  · intro hns
    have hfalse : (S.any fun tx => tx.to_address == m) = false := by
      rw [List.any_eq_false]
      intro tx htx
      rw [beq_iff_eq]
      exact hns tx htx
    have h0 : (check_risk_indicators defaultRiskIndicators S).count
        ("Interaction with mixing service: " ++ m) = 0 := by
      rw [hmain, hfalse]
      simp
    exact List.count_eq_zero.mp h0

/-- Closed instance of the mixing rule: one transaction sending amount 1 to
tornado.cash yields exactly one finding naming it. -/
theorem C6_mixing_rule_witness :
    ("tornado.cash" ∈ defaultRiskIndicators.mixing_service)
    ∧ (check_risk_indicators defaultRiskIndicators
          [Tx.mk (TsCell.raw "t") "A" "tornado.cash" 1 "0x1"]).count
        ("Interaction with mixing service: " ++ "tornado.cash") = 1 :=
  ⟨by decide,
   ((C6_mixing_rule [Tx.mk (TsCell.raw "t") "A" "tornado.cash" 1 "0x1"]
        "tornado.cash" (by decide)).1).trans
      (if_pos ⟨Tx.mk (TsCell.raw "t") "A" "tornado.cash" 1 "0x1", by decide, by decide⟩)⟩

/-- C3: the velocity calculator returns the zero metrics on the empty
subset; on a non-empty subset with time span h hours it returns
hourly_avg = count / max(h, 1) and daily_avg = count / max(h/24, 1); and a
subset of 10 transactions all within one minute gets hourly_avg = 10 and
daily_avg at most 10. -/
theorem C3_velocity_contract (parse : String → ℚ) :
    ((calculate_velocity parse ([] : List Tx)).1 = { hourly_avg := 0, daily_avg := 0 })
    ∧ (∀ S : List Tx, S ≠ [] →
        (calculate_velocity parse S).1.hourly_avg
            = (S.length : ℚ) / max (spanHours parse S) 1
        ∧ (calculate_velocity parse S).1.daily_avg
            = (S.length : ℚ) / max (spanHours parse S / 24) 1)
    ∧ (∀ S : List Tx, S.length = 10 →
        maxList (txTimes parse S) - minList (txTimes parse S) ≤ 60 →
        (calculate_velocity parse S).1.hourly_avg = 10
        ∧ (calculate_velocity parse S).1.daily_avg ≤ 10) := by
  refine ⟨rfl, fun S hS => ?_, fun S hlen hspan => ?_⟩
  · rw [calculate_velocity_fst parse S hS]
    exact ⟨rfl, rfl⟩
  · have hS : S ≠ [] := by
      intro hnil
      rw [hnil] at hlen
      simp at hlen
    have h0 : 0 ≤ spanHours parse S := spanHours_nonneg parse S hS
    have hle : spanHours parse S ≤ 1 := by
      rw [spanHours, div_le_one (by norm_num)]
      linarith
    rw [calculate_velocity_fst parse S hS, hlen]
    constructor
    · rw [max_eq_right hle]
      norm_num
    · exact div_le_self (by norm_num) (le_max_right _ 1)

/-- Closed instance of the velocity contract: ten transactions all at the
same instant give hourly_avg 10 and daily_avg at most 10. -/
theorem C3_velocity_contract_witness :
    (List.replicate 10 (Tx.mk (TsCell.parsed 0) "A" "B" 1 "0x1")).length = 10
    ∧ maxList (txTimes (fun _ => 0) (List.replicate 10 (Tx.mk (TsCell.parsed 0) "A" "B" 1 "0x1")))
        - minList (txTimes (fun _ => 0) (List.replicate 10 (Tx.mk (TsCell.parsed 0) "A" "B" 1 "0x1"))) ≤ 60
    ∧ ((calculate_velocity (fun _ => 0) (List.replicate 10 (Tx.mk (TsCell.parsed 0) "A" "B" 1 "0x1"))).1.hourly_avg = 10
       ∧ (calculate_velocity (fun _ => 0) (List.replicate 10 (Tx.mk (TsCell.parsed 0) "A" "B" 1 "0x1"))).1.daily_avg ≤ 10) :=
  ⟨by decide,
    by norm_num [txTimes, maxList, minList, tsSeconds, List.replicate, List.foldl],
    (C3_velocity_contract (fun _ => 0)).2.2 _ (by decide)
      (by norm_num [txTimes, maxList, minList, tsSeconds, List.replicate, List.foldl])⟩

/-- C10: on a non-empty subset the daily average is at least the hourly
average, and the hourly average never exceeds the transaction count. -/
theorem C10_velocity_metric_order (parse : String → ℚ) (S : List Tx) (h : S ≠ []) :
    (calculate_velocity parse S).1.hourly_avg ≤ (calculate_velocity parse S).1.daily_avg
    ∧ (calculate_velocity parse S).1.hourly_avg ≤ (S.length : ℚ) := by
  have h0 : 0 ≤ spanHours parse S := spanHours_nonneg parse S h
  rw [calculate_velocity_fst parse S h]
  constructor
  · apply div_le_div_of_nonneg_left (Nat.cast_nonneg _) (lt_of_lt_of_le one_pos (le_max_right _ 1))
    exact max_le_max (div_le_self h0 (by norm_num)) le_rfl
  · exact div_le_self (Nat.cast_nonneg _) (le_max_right _ 1)

theorem code_spec_counterparty_sets (a : String) (S : List Tx) :
    sentToSet a S ∪ receivedFromSet a S = specCounterpartySet a S := by
  ext x
  simp only [sentToSet, receivedFromSet, specCounterpartySet, Finset.mem_union,
    List.mem_toFinset, List.mem_map, List.mem_filter, Finset.mem_image,
    Finset.mem_filter, beq_iff_eq]

theorem sentToSet_cons (a : String) (tx : Tx) (rest : List Tx) :
    sentToSet a (tx :: rest)
      = if tx.from_address == a then insert tx.to_address (sentToSet a rest)
        else sentToSet a rest := by
  rw [sentToSet, List.filter_cons]
  split
  · rw [List.map_cons, List.toFinset_cons]
    rfl
  · rfl

theorem receivedFromSet_cons (a : String) (tx : Tx) (rest : List Tx) :
    receivedFromSet a (tx :: rest)
      = if tx.to_address == a then insert tx.from_address (receivedFromSet a rest)
        else receivedFromSet a rest := by
  rw [receivedFromSet, List.filter_cons]
  split
  · rw [List.map_cons, List.toFinset_cons]
    rfl
  · rfl

theorem unique_card_le_length (a : String) : ∀ S : List Tx,
    (sentToSet a S ∪ receivedFromSet a S).card ≤ S.length := by
  intro S
  induction S with
  | nil => simp [sentToSet, receivedFromSet]
  | cons tx rest ih =>
    rw [sentToSet_cons, receivedFromSet_cons, List.length_cons]
    by_cases hf : (tx.from_address == a) = true
    · by_cases ht : (tx.to_address == a) = true
      · have hfa : tx.from_address = a := by simpa using hf
        have hta : tx.to_address = a := by simpa using ht
        rw [if_pos hf, if_pos ht, hfa, hta, Finset.insert_union, Finset.union_insert,
          Finset.insert_idem]
        exact le_trans (Finset.card_insert_le _ _) (Nat.succ_le_succ ih)
      · rw [if_pos hf, if_neg ht, Finset.insert_union]
        exact le_trans (Finset.card_insert_le _ _) (Nat.succ_le_succ ih)
    · by_cases ht : (tx.to_address == a) = true
      · rw [if_neg hf, if_pos ht, Finset.union_insert]
        exact le_trans (Finset.card_insert_le _ _) (Nat.succ_le_succ ih)
      · rw [if_neg hf, if_neg ht]
        exact le_trans ih (Nat.le_succ _)

theorem keys_addVolume (acc : List (String × ℚ)) (k : String) (v : ℚ) :
    (addVolume acc k v).map Prod.fst
      = if k ∈ acc.map Prod.fst then acc.map Prod.fst
        else acc.map Prod.fst ++ [k] := by
  induction acc with
  | nil => simp [addVolume]
  | cons p rest ih =>
    obtain ⟨k₀, v₀⟩ := p
    rw [addVolume]
    by_cases hk : (k₀ == k) = true
    · have hke : k₀ = k := by simpa using hk
      subst hke
      rw [if_pos hk]
      simp [List.mem_cons]
    · have hne : k₀ ≠ k := by simpa using hk
      rw [if_neg hk, List.map_cons, ih, List.map_cons]
      by_cases hmem : k ∈ rest.map Prod.fst
      · rw [if_pos hmem, if_pos (by simp [hmem])]
      · rw [if_neg hmem, if_neg (by simp [hmem, Ne.symm hne])]
        rfl

theorem keys_counterparty_volumes_mem (a : String) :
    ∀ (S : List Tx) (acc : List (String × ℚ)),
    ∀ q ∈ ((S.foldl (fun acc tx => addVolume acc (counterpartyOf a tx) tx.amount) acc).map
        Prod.fst),
      q ∈ acc.map Prod.fst ∨ ∃ tx ∈ S, counterpartyOf a tx = q := by
  intro S
  induction S with
  | nil => intro acc q hq; exact Or.inl hq
  | cons tx rest ih =>
    intro acc q hq
    rw [List.foldl_cons] at hq
    rcases ih (addVolume acc (counterpartyOf a tx) tx.amount) q hq with h1 | h2
    · rw [keys_addVolume] at h1
      by_cases hmem : counterpartyOf a tx ∈ acc.map Prod.fst
      · rw [if_pos hmem] at h1
        exact Or.inl h1
      · rw [if_neg hmem] at h1
        rcases List.mem_append.mp h1 with h | h
        · exact Or.inl h
        · right
          exact ⟨tx, List.mem_cons_self tx rest, (List.mem_singleton.mp h).symm⟩
    · obtain ⟨t, ht, hcp⟩ := h2
      exact Or.inr ⟨t, List.mem_cons_of_mem tx ht, hcp⟩

theorem keys_counterparty_volumes_nodup (a : String) :
    ∀ (S : List Tx) (acc : List (String × ℚ)),
    (acc.map Prod.fst).Nodup →
      ((S.foldl (fun acc tx => addVolume acc (counterpartyOf a tx) tx.amount) acc).map
        Prod.fst).Nodup := by
  intro S
  induction S with
  | nil => intro acc h; exact h
  | cons tx rest ih =>
    intro acc hnd
    rw [List.foldl_cons]
    apply ih
    rw [keys_addVolume]
    by_cases hmem : counterpartyOf a tx ∈ acc.map Prod.fst
    · rw [if_pos hmem]
      exact hnd
    · rw [if_neg hmem]
      refine List.nodup_append.mpr ⟨hnd, by simp, ?_⟩
      intro x hx hxc
      rw [List.mem_singleton] at hxc
      subst hxc
      exact hmem hx

theorem cv_length_le_card (a : String) (S : List Tx)
    (hS : ∀ tx ∈ S, tx.from_address = a ∨ tx.to_address = a) :
    (counterparty_volumes a S).length
      ≤ (sentToSet a S ∪ receivedFromSet a S).card := by
  have hlen : (counterparty_volumes a S).length
      = ((counterparty_volumes a S).map Prod.fst).length := (List.length_map _ _).symm
  have hnd : ((counterparty_volumes a S).map Prod.fst).Nodup :=
    keys_counterparty_volumes_nodup a S [] (by simp)
  have hsub : ∀ q ∈ (counterparty_volumes a S).map Prod.fst,
      q ∈ sentToSet a S ∪ receivedFromSet a S := by
    intro q hq
    rcases keys_counterparty_volumes_mem a S [] q hq with h | ⟨tx, htx, hcp⟩
    · simp at h
    · by_cases hf : tx.from_address = a
      · rw [Finset.mem_union]
        left
        rw [sentToSet, List.mem_toFinset, List.mem_map]
        refine ⟨tx, List.mem_filter.mpr ⟨htx, by simp [hf]⟩, ?_⟩
        rw [← hcp, counterpartyOf, if_pos (by simp [hf] : (tx.from_address == a) = true)]
      · have ht : tx.to_address = a := (hS tx htx).resolve_left hf
        rw [Finset.mem_union]
        right
        rw [receivedFromSet, List.mem_toFinset, List.mem_map]
        refine ⟨tx, List.mem_filter.mpr ⟨htx, by simp [ht]⟩, ?_⟩
        rw [← hcp, counterpartyOf, if_neg (by simp [hf])]

  calc (counterparty_volumes a S).length
      = ((counterparty_volumes a S).map Prod.fst).length := hlen
    _ = ((counterparty_volumes a S).map Prod.fst).toFinset.card :=
        (List.toFinset_card_of_nodup hnd).symm
    _ ≤ (sentToSet a S ∪ receivedFromSet a S).card :=
        Finset.card_le_card (fun q hq => hsub q (List.mem_toFinset.mp hq))

/-- C4: for a wallet subset (every row involves the address), the
unique-counterparty count equals the size of the union of the outgoing
recipients and the incoming senders and never exceeds the subset size, and
the ranked list is sorted by non-increasing volume with length at most
min(top_n, unique_counterparties). -/
theorem C4_counterparty_aggregation (a : String) (S : List Tx) (top_n : ℕ)
    (hS : ∀ tx ∈ S, tx.from_address = a ∨ tx.to_address = a) :
    (analyze_counterparties a S).unique_counterparties = (specCounterpartySet a S).card
    ∧ (analyze_counterparties a S).unique_counterparties ≤ S.length
    ∧ List.Sorted volGe (get_top_counterparties a S top_n)
    ∧ (get_top_counterparties a S top_n).length
        ≤ min top_n (analyze_counterparties a S).unique_counterparties := by
  refine ⟨?_, ?_, ?_, ?_⟩
  · show (sentToSet a S ∪ receivedFromSet a S).card = _
    rw [code_spec_counterparty_sets]
  · exact unique_card_le_length a S
  · rw [get_top_counterparties]
    exact List.Pairwise.sublist (List.take_sublist _ _) (List.sorted_insertionSort volGe _)
  · show _ ≤ min top_n (sentToSet a S ∪ receivedFromSet a S).card
    rw [get_top_counterparties, List.length_take,
      (List.perm_insertionSort volGe _).length_eq, List.length_map]
    exact min_le_min le_rfl (cv_length_le_card a S hS)

/-- Closed instance of the counterparty aggregation contract on the
one-transaction wallet subset in which A sends 1 to B. -/
theorem C4_counterparty_aggregation_witness :
    (∀ tx ∈ [Tx.mk (TsCell.raw "t") "A" "B" 1 "0x1"],
        tx.from_address = "A" ∨ tx.to_address = "A")
    ∧ ((analyze_counterparties "A" [Tx.mk (TsCell.raw "t") "A" "B" 1 "0x1"]).unique_counterparties
        = (specCounterpartySet "A" [Tx.mk (TsCell.raw "t") "A" "B" 1 "0x1"]).card
      ∧ (analyze_counterparties "A" [Tx.mk (TsCell.raw "t") "A" "B" 1 "0x1"]).unique_counterparties
        ≤ [Tx.mk (TsCell.raw "t") "A" "B" 1 "0x1"].length
      ∧ List.Sorted volGe (get_top_counterparties "A" [Tx.mk (TsCell.raw "t") "A" "B" 1 "0x1"] 5)
      ∧ (get_top_counterparties "A" [Tx.mk (TsCell.raw "t") "A" "B" 1 "0x1"] 5).length
        ≤ min 5 (analyze_counterparties "A"
            [Tx.mk (TsCell.raw "t") "A" "B" 1 "0x1"]).unique_counterparties) :=
  ⟨by decide, C4_counterparty_aggregation "A" _ 5 (by decide)⟩

/-- C1 counterexample: the velocity component is not a pure function over
the frame it receives.  On a one-transaction frame whose timestamp is still
raw text, the post-call contents differ from the contents passed in: the
assignment of line 68 has rewritten the timestamp field in place. -/
theorem C1_velocity_mutates_input_counterexample :
    (calculate_velocity (fun _ => 0)
        [Tx.mk (TsCell.raw "2024-01-01T10:00:00") "A" "B" 1 "0x1"]).2
      ≠ [Tx.mk (TsCell.raw "2024-01-01T10:00:00") "A" "B" 1 "0x1"] := by
  decide

/-- C1 amended: analyze leaves the caller transaction set exactly as it was
(the boolean-mask filter of line 26 hands the components a copy), but the
velocity component itself is impure: on a non-empty input it rewrites the
timestamp field of every transaction of the frame it receives in place,
leaving all other fields unchanged. -/
theorem C1_analysis_frame_effect (parse : String → ℚ)
    (cfg : RiskIndicatorsConfig) (a : String) (T : List Tx) :
    (analyze_wallet_state parse cfg a T).2 = T
    ∧ (calculate_velocity parse T).2
        = (if T.length = 0 then T
           else T.map (fun tx => { tx with timestamp := pdToDatetime parse tx.timestamp })) := by
  refine ⟨rfl, ?_⟩
  rw [calculate_velocity]
  split
  · rfl
  · rfl

/-- C9: a self-transfer makes the wallet its own counterparty: the wallet
address lands in the unique-counterparty set, the per-row attribution of
line 95 assigns the amount to the wallet address itself, and on a subset
holding just that transaction the wallet address appears in
top_counterparties carrying the transferred amount. -/
theorem C9_self_transfer_counted (a : String) (tx : Tx)
    (hfrom : tx.from_address = a) (hto : tx.to_address = a) :
    (∀ S : List Tx, tx ∈ S → a ∈ sentToSet a S ∪ receivedFromSet a S)
    ∧ counterpartyOf a tx = a
    ∧ get_top_counterparties a [tx] 5 = [TopCounterparty.mk a tx.amount] := by
  refine ⟨?_, ?_, ?_⟩
  · intro S hS
    rw [Finset.mem_union]
    left
    rw [sentToSet, List.mem_toFinset, List.mem_map]
    exact ⟨tx, List.mem_filter.mpr ⟨hS, by simp [hfrom]⟩, hto⟩
  · rw [counterpartyOf, if_pos (by simp [hfrom] : (tx.from_address == a) = true)]
    exact hto
  · rw [get_top_counterparties, counterparty_volumes]
    simp [counterpartyOf, hfrom, hto, addVolume, List.insertionSort, List.orderedInsert]

/-- Closed instance of the self-transfer attribution on a one-transaction
subset whose single row sends from A to A. -/
theorem C9_self_transfer_counted_witness :
    (Tx.mk (TsCell.raw "t") "A" "A" 5 "0x1").from_address = "A"
    ∧ (Tx.mk (TsCell.raw "t") "A" "A" 5 "0x1").to_address = "A"
    ∧ "A" ∈ sentToSet "A" [Tx.mk (TsCell.raw "t") "A" "A" 5 "0x1"]
        ∪ receivedFromSet "A" [Tx.mk (TsCell.raw "t") "A" "A" 5 "0x1"]
    ∧ counterpartyOf "A" (Tx.mk (TsCell.raw "t") "A" "A" 5 "0x1") = "A"
    ∧ get_top_counterparties "A" [Tx.mk (TsCell.raw "t") "A" "A" 5 "0x1"] 5
        = [TopCounterparty.mk "A" (Tx.mk (TsCell.raw "t") "A" "A" 5 "0x1").amount] :=
  ⟨rfl, rfl,
   (C9_self_transfer_counted "A" (Tx.mk (TsCell.raw "t") "A" "A" 5 "0x1") rfl rfl).1
     [Tx.mk (TsCell.raw "t") "A" "A" 5 "0x1"] (by simp),
   (C9_self_transfer_counted "A" (Tx.mk (TsCell.raw "t") "A" "A" 5 "0x1") rfl rfl).2.1,
   (C9_self_transfer_counted "A" (Tx.mk (TsCell.raw "t") "A" "A" 5 "0x1") rfl rfl).2.2⟩

/-- Closed instance of the velocity ordering on a one-transaction subset. -/
theorem C10_velocity_metric_order_witness :
    ([Tx.mk (TsCell.parsed 0) "A" "B" 1 "0x1"] : List Tx) ≠ []
    ∧ ((calculate_velocity (fun _ => 0) [Tx.mk (TsCell.parsed 0) "A" "B" 1 "0x1"]).1.hourly_avg
        ≤ (calculate_velocity (fun _ => 0) [Tx.mk (TsCell.parsed 0) "A" "B" 1 "0x1"]).1.daily_avg
       ∧ (calculate_velocity (fun _ => 0) [Tx.mk (TsCell.parsed 0) "A" "B" 1 "0x1"]).1.hourly_avg
        ≤ (([Tx.mk (TsCell.parsed 0) "A" "B" 1 "0x1"] : List Tx).length : ℚ)) :=
  ⟨by decide, C10_velocity_metric_order (fun _ => 0) _ (by decide)⟩

end CryptoTool
